import Mathlib

/-!
Verification of the tiltshift solar-panel alignment app's sensor-fusion and
estimation pipeline.  Angles and productions are modelled as rationals; the
JavaScript remainder operator, `Number.prototype.toFixed` rounding, the React
effect lifecycle of the haptic hook, and the PVWatts sweep/caching logic are
embedded as executable Lean definitions translated from the source files
`src/hooks/useTiltCompensatedCompass.ts`, `src/hooks/useHapticFeedback.ts`,
`src/utils/alignmentStatus.ts`, `src/utils/pvwatts.ts` and
`src/utils/solarCalculations.ts`.
-/

/-! ### Angle math utilities (useTiltCompensatedCompass.ts, alignmentStatus.ts) -/

/-- Truncation toward zero, the rounding used by the JavaScript `%` operator. -/
def ratTrunc (q : ℚ) : ℤ :=
  if 0 ≤ q then ⌊q⌋ else ⌈q⌉

/-- JavaScript remainder `a % b`: the dividend minus `b` times the quotient
truncated toward zero. -/
def jsMod (a b : ℚ) : ℚ :=
  a - b * (ratTrunc (a / b) : ℚ)

/-- `normalizeAngle` from useTiltCompensatedCompass.ts:
`((angle % 360) + 360) % 360`. -/
def normalizeAngle (angle : ℚ) : ℚ :=
  jsMod (jsMod angle 360 + 360) 360

/-- `shortestDelta` from useTiltCompensatedCompass.ts: `to - from`, then one
conditional `-360` adjustment followed by one conditional `+360` adjustment. -/
def shortestDelta (f t : ℚ) : ℚ :=
  let d := t - f
  let d2 := if 180 < d then d - 360 else d
  if d2 < -180 then d2 + 360 else d2

/-- The first `while` loop of `calculateAngleDeviation` from
alignmentStatus.ts: `while (deviation > 180) deviation -= 360`. -/
def devSubLoop (d : ℚ) : ℚ :=
  if h : 180 < d then devSubLoop (d - 360) else d
termination_by (⌈d⌉).toNat
decreasing_by
  have h1 : (180 : ℤ) < ⌈d⌉ := by
    rw [Int.lt_ceil]; exact_mod_cast h
  have h2 : ⌈d - 360⌉ = ⌈d⌉ - 360 := by
    exact_mod_cast Int.ceil_sub_int d (360 : ℤ)
  omega

/-- The second `while` loop of `calculateAngleDeviation` from
alignmentStatus.ts: `while (deviation < -180) deviation += 360`. -/
def devAddLoop (d : ℚ) : ℚ :=
  if h : d < -180 then devAddLoop (d + 360) else d
termination_by (-⌊d⌋).toNat
decreasing_by
  have h1 : ⌊d⌋ < (-180 : ℤ) := by
    rw [Int.floor_lt]; exact_mod_cast h
  have h2 : ⌊d + 360⌋ = ⌊d⌋ + 360 := by
    exact_mod_cast Int.floor_add_int d (360 : ℤ)
  omega

/-- `calculateAngleDeviation` from alignmentStatus.ts: `current - target`
reduced into range by the two `while` loops. -/
def calculateAngleDeviation (current target : ℚ) : ℚ :=
  devAddLoop (devSubLoop (current - target))

/-! Range lemmas for the angle utilities. -/

theorem ratTrunc_le_of_nonneg {q : ℚ} (h : 0 ≤ q) : (ratTrunc q : ℚ) ≤ q := by
  rw [ratTrunc, if_pos h]
  exact Int.floor_le q

theorem lt_ratTrunc_add_one_of_nonneg {q : ℚ} (h : 0 ≤ q) :
    q < (ratTrunc q : ℚ) + 1 := by
  rw [ratTrunc, if_pos h]
  exact Int.lt_floor_add_one q

theorem ratTrunc_ge_of_neg {q : ℚ} (h : ¬ 0 ≤ q) : q ≤ (ratTrunc q : ℚ) := by
  rw [ratTrunc, if_neg h]
  exact Int.le_ceil q

theorem ratTrunc_lt_add_one_of_neg {q : ℚ} (h : ¬ 0 ≤ q) :
    (ratTrunc q : ℚ) < q + 1 := by
  rw [ratTrunc, if_neg h]
  have := Int.ceil_lt_add_one q
  linarith

/-- For a nonnegative dividend, `a % 360` in JavaScript lands in `[0, 360)`. -/
theorem jsMod360_nonneg_range {a : ℚ} (h : 0 ≤ a) :
    0 ≤ jsMod a 360 ∧ jsMod a 360 < 360 := by
  have hq : (0 : ℚ) ≤ a / 360 := by positivity
  have h1 := ratTrunc_le_of_nonneg hq
  have h2 := lt_ratTrunc_add_one_of_nonneg hq
  rw [jsMod]
  constructor <;> nlinarith

/-- For any dividend, `a % 360` in JavaScript lands in `(-360, 360)`. -/
theorem jsMod360_range (a : ℚ) : -360 < jsMod a 360 ∧ jsMod a 360 < 360 := by
  by_cases h : 0 ≤ a
  · have := jsMod360_nonneg_range h
    exact ⟨by linarith [this.1], this.2⟩
  · have hq : ¬ (0 : ℚ) ≤ a / 360 := by
      intro hc
      exact h (by nlinarith)
    have h1 := ratTrunc_ge_of_neg hq
    have h2 := ratTrunc_lt_add_one_of_neg hq
    rw [jsMod]
    constructor <;> nlinarith

/-- `normalizeAngle` always lands in `[0, 360)`. -/
theorem normalizeAngle_range (a : ℚ) :
    0 ≤ normalizeAngle a ∧ normalizeAngle a < 360 := by
  have h := jsMod360_range a
  have hnn : 0 ≤ jsMod a 360 + 360 := by linarith [h.1]
  exact jsMod360_nonneg_range hnn

/-- The first deviation loop never leaves a value above 180. -/
theorem devSubLoop_le (d : ℚ) : devSubLoop d ≤ 180 := by
  induction d using devSubLoop.induct with
  | case1 d h ih => rw [devSubLoop.eq_def, dif_pos h]; exact ih
  | case2 d h => rw [devSubLoop.eq_def, dif_neg h]; linarith [not_lt.mp h]

/-- The second deviation loop never returns below -180 and preserves the
upper bound 180. -/
theorem devAddLoop_range (d : ℚ) : d ≤ 180 → -180 ≤ devAddLoop d ∧ devAddLoop d ≤ 180 := by
  induction d using devAddLoop.induct with
  | case1 d h ih =>
    intro hd
    rw [devAddLoop.eq_def, dif_pos h]
    exact ih (by linarith)
  | case2 d h =>
    intro hd
    rw [devAddLoop.eq_def, dif_neg h]
    exact ⟨not_lt.mp h, hd⟩

/-! ### Orientation estimator heading accumulator (useTiltCompensatedCompass.ts)

The compass hook keeps a continuous heading accumulator
(`continuousAngleRef`) plus an `initializedRef` flag; `updateHeading` takes
the raw tilt-compensated heading sample, updates the accumulator by the
dead-banded smoothed shortest delta, and publishes `heading` (wrapped,
snapped to 0 at 359.5 and above) together with `rawHeading` (the continuous
accumulator). -/

/-- The accumulator state held in refs by `useTiltCompensatedCompass`. -/
structure CompassAccum where
  continuousAngle : ℚ
  inited : Bool
  deriving DecidableEq

/-- The heading part of one `updateHeading` call: consumes the raw heading
sample computed by `calculateTiltCompensatedHeading`, returns the new
accumulator state plus the published `(heading, rawHeading)` pair. -/
def updateHeadingStep (smoothingFactor : ℚ) (s : CompassAccum) (rawHeading : ℚ) :
    CompassAccum × ℚ × ℚ :=
  let continuous :=
    if s.inited = false then rawHeading
    else
      let delta := shortestDelta (normalizeAngle s.continuousAngle) rawHeading
      if 3/10 < |delta| then s.continuousAngle + delta * smoothingFactor
      else s.continuousAngle
  let displayHeading := normalizeAngle continuous
  let finalDisplay := if 719/2 ≤ displayHeading then 0 else displayHeading
  (⟨continuous, true⟩, finalDisplay, continuous)

/-! ### Haptic guidance scheduler (useHapticFeedback.ts)

The hook is a React effect with dependencies `(enabled, deviation)`; its
refs `intervalRef`, `lastIntensityRef`, `isLockedRef` survive across runs.
React re-runs the effect only when a dependency changes, and first invokes
the cleanup returned by the previous run (the hook's cleanup clears the
interval; the early-return paths return no cleanup).  Pulses are recorded as
the intensity passed to `triggerHaptic`. -/

inductive HapticIntensity
  | none
  | approaching
  | close
  | very_close
  | locked
  deriving DecidableEq, Repr

/-- The ref cell contents of `useHapticFeedback`, plus `hasCleanup` (whether
the previous effect run returned a cleanup function) and `prevDeps` (the
dependency values of the previous run, `Option.none` before the first run). -/
structure HapticState where
  interval : Option ℕ
  lastIntensity : HapticIntensity
  isLocked : Bool
  hasCleanup : Bool
  prevDeps : Option (Bool × ℚ)
  deriving DecidableEq

/-- The ref contents at mount. -/
def hapticInit : HapticState :=
  ⟨Option.none, HapticIntensity.none, false, false, Option.none⟩

/-- `getIntensity` from useHapticFeedback.ts, with the fixed thresholds
`VERY_CLOSE = 2`, `CLOSE = 5`, `APPROACHING = 10`. -/
def getIntensity (lockThreshold dev : ℚ) : HapticIntensity :=
  let absDev := |dev|
  if absDev ≤ lockThreshold then .locked
  else if absDev ≤ 2 then .very_close
  else if absDev ≤ 5 then .close
  else if absDev ≤ 10 then .approaching
  else .none

/-- The interval chosen for a non-locked intensity (`HAPTIC_INTERVALS`);
the `locked` and `none` branches of the conditional give `null`. -/
def intervalMsFor : HapticIntensity → Option ℕ
  | .very_close => some 100
  | .close => some 250
  | .approaching => some 500
  | _ => Option.none

/-- One execution of the effect body (preceded by the previous run's cleanup,
when one was registered).  Returns the new ref state and the pulses fired
during this run. -/
def effectRun (lockThreshold : ℚ) (s : HapticState) (enabled : Bool) (deviation : ℚ) :
    HapticState × List HapticIntensity :=
  let s0 := if s.hasCleanup then { s with interval := Option.none } else s
  if enabled = false then
    ({ s0 with interval := Option.none, hasCleanup := false }, [])
  else
    let intensity := getIntensity lockThreshold deviation
    if intensity = .locked ∧ s0.isLocked = false then
      ({ s0 with isLocked := true, interval := Option.none, hasCleanup := false },
       [.locked])
    else
      let s1 := if intensity ≠ .locked then { s0 with isLocked := false } else s0
      if intensity ≠ s1.lastIntensity then
        let s2 := { s1 with lastIntensity := intensity, interval := Option.none }
        match intervalMsFor intensity with
        | some ms => ({ s2 with interval := some ms, hasCleanup := true }, [intensity])
        | Option.none => ({ s2 with hasCleanup := true }, [])
      else
        ({ s1 with hasCleanup := true }, [])

/-- One deviation sample delivered to the hook: the effect re-runs only when
the `(enabled, deviation)` dependency pair changed. -/
def hapticStep (lockThreshold : ℚ) (s : HapticState) (enabled : Bool) (deviation : ℚ) :
    HapticState × List HapticIntensity :=
  if s.prevDeps = some (enabled, deviation) then (s, [])
  else
    let r := effectRun lockThreshold s enabled deviation
    ({ r.1 with prevDeps := some (enabled, deviation) }, r.2)

/-- Process a list of samples, concatenating the pulses fired. -/
def hapticRun (lockThreshold : ℚ) (s : HapticState) :
    List (Bool × ℚ) → HapticState × List HapticIntensity
  | [] => (s, [])
  | sample :: rest =>
    let r := hapticStep lockThreshold s sample.1 sample.2
    let r' := hapticRun lockThreshold r.1 rest
    (r'.1, r.2 ++ r'.2)

/-- Number of `locked` confirmation pulses in a pulse list. -/
def confirmations (pulses : List HapticIntensity) : ℕ :=
  pulses.count .locked

/-! ### External estimation client (pvwatts.ts)

The PVWatts client is modelled with an explicit cache value, the current
clock reading `now`, and a fetch oracle: `fetch tilt = some production` is a
successful candidate request, `Option.none` a per-candidate network/parse
failure (caught inside the sweep and degraded to production 0).  A separate
`outerFail` flag models a failure of the surrounding `try` block outside the
per-candidate handlers, which is what reaches the `catch` that builds the
formula fallback.  The third component of the output counts the candidate
network requests issued. -/

inductive Confidence
  | live
  | cached
  | fallback
  deriving DecidableEq, Repr

/-- The result record of `getOptimalTiltFromPVWatts`. -/
structure OptimalTiltResult where
  tilt : ℚ
  annualProduction : ℚ
  confidence : Confidence
  deriving DecidableEq

/-- One cache entry: `{ tilt, timestamp }`. -/
structure CacheEntry where
  tilt : ℚ
  timestamp : ℚ
  deriving DecidableEq

/-- The `tiltCache` map, newest entry first (later `set`s shadow older ones). -/
abbrev TiltCache := List ((ℚ × ℚ) × CacheEntry)

/-- `CACHE_DURATION = 24 * 60 * 60 * 1000` milliseconds. -/
def CACHE_DURATION : ℚ := 24 * 60 * 60 * 1000

/-- `toFixed(2)` rounding of a coordinate: round half up at the second
decimal. -/
def round2 (q : ℚ) : ℚ :=
  (round (q * 100) : ℚ) / 100

/-- `getCacheKey`: the pair of coordinates rounded to two decimals. -/
def getCacheKey (lat lon : ℚ) : ℚ × ℚ :=
  (round2 lat, round2 lon)

/-- `Map.get` on the cache. -/
def cacheGet (c : TiltCache) (k : ℚ × ℚ) : Option CacheEntry :=
  (c.find? (fun e => e.1 = k)).map (·.2)

/-- `Map.set` on the cache. -/
def cacheSet (c : TiltCache) (k : ℚ × ℚ) (e : CacheEntry) : TiltCache :=
  (k, e) :: c

/-- The candidate sweep of `getOptimalTiltFromPVWatts`: `baseAngle` is
`|latitude|` and the five offsets are filtered by `a >= 0 && a <= 90`. -/
def testAngles (latitude : ℚ) : List ℚ :=
  let baseAngle := |latitude|
  [baseAngle - 10, baseAngle - 5, baseAngle, baseAngle + 5, baseAngle + 10].filter
    (fun a => 0 ≤ a ∧ a ≤ 90)

/-- The production obtained for one candidate: a failed request is caught and
degraded to 0. -/
def productionOf (fetch : ℚ → Option ℚ) (tilt : ℚ) : ℚ :=
  (fetch tilt).getD 0

/-- The winner-selection loop of `getOptimalTiltFromPVWatts`: starting from
`(baseAngle, 0)`, take each candidate whose production strictly beats the
best so far. -/
def pickBest : List (ℚ × ℚ) → ℚ × ℚ → ℚ × ℚ
  | [], best => best
  | r :: rest, best => pickBest rest (if best.2 < r.2 then r else best)

/-- `getOptimalTiltFromPVWatts`: check the cache, then either serve the
cached tilt, fall back to `|lat| * 0.87` when the sweep as a whole throws,
or run the sweep, cache the winner and return it as live. -/
def getOptimalTiltFromPVWatts (cache : TiltCache) (now lat lon : ℚ)
    (fetch : ℚ → Option ℚ) (outerFail : Bool) :
    OptimalTiltResult × TiltCache × ℕ :=
  let cacheKey := getCacheKey lat lon
  let hit : Option ℚ :=
    match cacheGet cache cacheKey with
    | some cached => if now - cached.timestamp < CACHE_DURATION then some cached.tilt
                     else Option.none
    | Option.none => Option.none
  match hit with
  | some tilt => (⟨tilt, 0, Confidence.cached⟩, cache, 0)
  | Option.none =>
    if outerFail then
      (⟨|lat| * (87/100), 0, Confidence.fallback⟩, cache, 0)
    else
      let angles := testAngles lat
      let results := angles.map (fun t => (t, productionOf fetch t))
      let best := pickBest results (|lat|, 0)
      (⟨best.1, best.2, Confidence.live⟩,
       cacheSet cache cacheKey ⟨best.1, now⟩, angles.length)

/-! ### Winter-priority estimation (pvwatts.ts, getWinterPriorityTiltFromPVWatts)

The winter sweep tests `baseAngle + 0, 5, ..., 25` (kept within `[0, 90]`),
fetches each candidate's June (index 5) and December (index 11) monthly
yields, sorts the results by tilt descending and takes the first candidate
with `juneProduction >= decProduction && decProduction > 0`, defaulting to
the last element of the sorted array (the shallowest tested angle). -/

/-- One per-candidate result of the winter sweep. -/
structure WinterCandidate where
  tilt : ℚ
  juneProduction : ℚ
  decProduction : ℚ
  deriving DecidableEq

/-- The tested angles of the winter sweep. -/
def winterTestAngles (latitude : ℚ) : List ℚ :=
  let baseAngle := |latitude|
  ([0, 5, 10, 15, 20, 25].map (fun offset => baseAngle + offset)).filter
    (fun a => 0 ≤ a ∧ a ≤ 90)

/-- The per-candidate results; a failed request degrades both yields to 0. -/
def winterResults (latitude : ℚ) (fetch : ℚ → Option (ℚ × ℚ)) :
    List WinterCandidate :=
  (winterTestAngles latitude).map (fun tilt =>
    match fetch tilt with
    | some p => ⟨tilt, p.1, p.2⟩
    | Option.none => ⟨tilt, 0, 0⟩)

/-- The descending-tilt order used by `results.sort((a, b) => b.tilt - a.tilt)`. -/
def tiltGE (a b : WinterCandidate) : Prop :=
  b.tilt ≤ a.tilt

instance : DecidableRel tiltGE := fun a b => inferInstanceAs (Decidable (b.tilt ≤ a.tilt))

instance : IsTotal WinterCandidate tiltGE := ⟨fun a b => le_total b.tilt a.tilt⟩

instance : IsTrans WinterCandidate tiltGE :=
  ⟨fun _ _ _ h1 h2 => le_trans h2 h1⟩

/-- The in-place sort by tilt descending. -/
def winterSortDesc (l : List WinterCandidate) : List WinterCandidate :=
  l.insertionSort tiltGE

/-- The acceptance test of the selection loop:
`result.juneProduction >= result.decProduction && result.decProduction > 0`. -/
def winterValid (r : WinterCandidate) : Prop :=
  r.decProduction ≤ r.juneProduction ∧ 0 < r.decProduction

instance : DecidablePred winterValid := fun r =>
  inferInstanceAs (Decidable (r.decProduction ≤ r.juneProduction ∧ 0 < r.decProduction))

/-- The selection loop over the sorted results: first (steepest) valid
candidate, else `results[results.length - 1]` (the shallowest after the
descending sort). -/
def winterPickBest (sorted : List WinterCandidate) : WinterCandidate :=
  match sorted.find? (fun r => decide (winterValid r)) with
  | some r => r
  | Option.none => sorted.getLastD ⟨0, 0, 0⟩

/-- The selection portion of `getWinterPriorityTiltFromPVWatts` on a cache
miss: returns `(tilt, decProduction, juneProduction)` of the chosen
candidate. -/
def getWinterPriorityTilt (latitude : ℚ) (fetch : ℚ → Option (ℚ × ℚ)) :
    ℚ × ℚ × ℚ :=
  let best := winterPickBest (winterSortDesc (winterResults latitude fetch))
  (best.tilt, best.decProduction, best.juneProduction)

/-- Selection following the specification text instead: the steepest tested
angle where June yield is at least December yield, with no positivity
requirement on the December yield. -/
def specWinterPickBest (sorted : List WinterCandidate) : WinterCandidate :=
  match sorted.find? (fun r => decide (r.decProduction ≤ r.juneProduction)) with
  | some r => r
  | Option.none => sorted.getLastD ⟨0, 0, 0⟩

/-- The winter tilt the specification text describes. -/
def specWinterTilt (latitude : ℚ) (fetch : ℚ → Option (ℚ × ℚ)) : ℚ :=
  (specWinterPickBest (winterSortDesc (winterResults latitude fetch))).tilt

/-- The candidate list the specification text describes for the
production-maximizing sweep: each of the five offsets clipped into `[0, 90]`
rather than dropped. -/
def specClippedAngles (latitude : ℚ) : List ℚ :=
  let b := |latitude|
  [max 0 (min 90 (b - 10)), max 0 (min 90 (b - 5)), max 0 (min 90 b),
   max 0 (min 90 (b + 5)), max 0 (min 90 (b + 10))]

/-! ### Solar target calculator (solarCalculations.ts) -/

/-- `getJacobsonTilt` from solarCalculations.ts:
`1.3793 + lat * (1.2011 + lat * (-0.014404 + lat * 0.000080509))` with
`lat = |latitude|`. -/
def getJacobsonTilt (latitude : ℚ) : ℚ :=
  let lat := |latitude|
  13793/10000 + lat * (12011/10000 + lat * (-(14404/1000000) + lat * (80509/1000000000)))

/-- The year-round Jacobson tilt as written in the specification text, whose
cubic coefficient is `0.0000805`. -/
def specJacobsonTilt (latitude : ℚ) : ℚ :=
  let lat := |latitude|
  13793/10000 + lat * (12011/10000 + lat * (-(14404/1000000) + lat * (805/10000000)))

/-! ### Claim C1 -/

/-- Claim C1 counterexample: on the very first sensor update with raw
heading 359.7°, the published heading is snapped to 0 while
`normalizeAngle(rawHeading)` is 359.7, so `heading == normalizeAngle(rawHeading)`
fails. -/
theorem C1_counterexample :
    (updateHeadingStep (1/4) ⟨0, false⟩ (3597/10)).2.1 = 0 ∧
    (updateHeadingStep (1/4) ⟨0, false⟩ (3597/10)).2.2 = 3597/10 ∧
    normalizeAngle ((updateHeadingStep (1/4) ⟨0, false⟩ (3597/10)).2.2) = 3597/10 ∧
    (updateHeadingStep (1/4) ⟨0, false⟩ (3597/10)).2.1 ≠
      normalizeAngle ((updateHeadingStep (1/4) ⟨0, false⟩ (3597/10)).2.2) := by
  norm_num [updateHeadingStep, normalizeAngle, jsMod, ratTrunc]

/-- Claim C1 amended: on every sensor update, the published heading equals
`normalizeAngle(rawHeading)` except when that normalization lies in
`[359.5, 360)`, where the heading is published as 0; the normalization
itself always lies in `[0, 360)`. -/
theorem C1_heading_equals_snapped_normalization (smoothingFactor : ℚ)
    (s : CompassAccum) (raw : ℚ) :
    (updateHeadingStep smoothingFactor s raw).2.1 =
      (if 719/2 ≤ normalizeAngle ((updateHeadingStep smoothingFactor s raw).2.2) then 0
       else normalizeAngle ((updateHeadingStep smoothingFactor s raw).2.2)) ∧
    0 ≤ normalizeAngle ((updateHeadingStep smoothingFactor s raw).2.2) ∧
    normalizeAngle ((updateHeadingStep smoothingFactor s raw).2.2) < 360 := by
  refine ⟨rfl, normalizeAngle_range _⟩

/-! ### Claim C4 -/

/-- Claim C4 counterexample: both circular-difference operations return
exactly -180 on the inputs (180, 0) and (0, 180) respectively, and -180 is
outside the claimed half-open interval `(-180, 180]`. -/
theorem C4_counterexample :
    shortestDelta 180 0 = -180 ∧ calculateAngleDeviation 0 180 = -180 ∧
    ¬ (-180 < shortestDelta 180 0) ∧ ¬ (-180 < calculateAngleDeviation 0 180) := by
  have e1 : devSubLoop ((0 : ℚ) - 180) = -180 := by
    rw [devSubLoop.eq_def, dif_neg (by norm_num)]
    norm_num
  have e2 : devAddLoop (-180 : ℚ) = -180 := by
    rw [devAddLoop.eq_def, dif_neg (by norm_num)]
  have h1 : shortestDelta 180 0 = -180 := by norm_num [shortestDelta]
  have h2 : calculateAngleDeviation 0 180 = -180 := by
    rw [calculateAngleDeviation, e1, e2]
  exact ⟨h1, h2, by rw [h1]; norm_num, by rw [h2]; norm_num⟩

/-- Claim C4 amended: the circular angle differences land in the closed
interval `[-180, 180]` (both endpoints attainable): `calculateAngleDeviation`
for all real inputs, and `shortestDelta` whenever `|to - from| ≤ 540`, which
covers its only call site where both arguments lie in `[0, 360)`. -/
theorem C4_circular_difference_range :
    (∀ current target : ℚ, -180 ≤ calculateAngleDeviation current target ∧
        calculateAngleDeviation current target ≤ 180) ∧
    (∀ f t : ℚ, |t - f| ≤ 540 →
        -180 ≤ shortestDelta f t ∧ shortestDelta f t ≤ 180) := by
  constructor
  · intro current target
    exact devAddLoop_range _ (devSubLoop_le _)
  · intro f t h
    have h1 := abs_le.mp h
    simp only [shortestDelta]
    split_ifs with hA hB hC <;> constructor <;> linarith [h1.1, h1.2]

/-- Witness for the amended C4, at the concrete inputs (30, 50) for the
deviation and (10, 200) for the shortest delta. -/
theorem C4_witness :
    (-180 ≤ calculateAngleDeviation 30 50 ∧ calculateAngleDeviation 30 50 ≤ 180) ∧
    (|(200 : ℚ) - 10| ≤ 540 ∧
      (-180 ≤ shortestDelta 10 200 ∧ shortestDelta 10 200 ≤ 180)) :=
  ⟨C4_circular_difference_range.1 30 50, by norm_num,
   C4_circular_difference_range.2 10 200 (by norm_num)⟩

/-! ### Claim C9 -/

/-- Claim C9 counterexample: at latitude 10°, the code's Jacobson cubic
(with coefficient 0.000080509) gives 12.030409, while the spec's formula
with coefficient 0.0000805 gives 12.0304. -/
theorem C9_counterexample :
    getJacobsonTilt 10 = 12030409/1000000 ∧ specJacobsonTilt 10 = 120304/10000 ∧
    getJacobsonTilt 10 ≠ specJacobsonTilt 10 := by
  norm_num [getJacobsonTilt, specJacobsonTilt]

/-- Claim C9 amended: for every latitude, the Jacobson year-round tilt is
the cubic `1.3793 + 1.2011 L - 0.014404 L² + 0.000080509 L³` with
`L = |latitude|` (the cubic coefficient is 0.000080509, not 0.0000805). -/
theorem C9_jacobson_cubic (latitude : ℚ) :
    getJacobsonTilt latitude =
      13793/10000 + |latitude| * (12011/10000) - |latitude|^2 * (14404/1000000)
        + |latitude|^3 * (80509/1000000000) := by
  unfold getJacobsonTilt
  ring

/-! ### Haptic scheduler lemmas -/

theorem getIntensity_locked {lock d : ℚ} (h : |d| ≤ lock) :
    getIntensity lock d = .locked := by
  unfold getIntensity
  rw [if_pos h]

theorem getIntensity_ne_locked {lock d : ℚ} (h : lock < |d|) :
    getIntensity lock d ≠ .locked := by
  unfold getIntensity
  rw [if_neg (not_le.mpr h)]
  split_ifs <;> simp

/-- Invariant while the deviation stays within the lock threshold: the locked
flag is set and the last processed dependency pair was an enabled sample
within the threshold. -/
def LockedInv (lock : ℚ) (s : HapticState) : Prop :=
  s.isLocked = true ∧ ∃ q, s.prevDeps = some (true, q) ∧ |q| ≤ lock

/-- Entering the lock threshold from a non-locked state fires exactly the one
confirmation pulse and cancels the periodic timer. -/
theorem hapticStep_enter {lock : ℚ} {s : HapticState} {d : ℚ}
    (hlock : s.isLocked = false) (hdep : s.prevDeps ≠ some (true, d))
    (hd : |d| ≤ lock) :
    hapticStep lock s true d =
      (⟨Option.none, s.lastIntensity, true, false, some (true, d)⟩,
       [HapticIntensity.locked]) := by
  rcases s with ⟨i, li, il, hc, pd⟩
  simp only at hlock
  subst hlock
  cases hc <;>
    simp [hapticStep, effectRun, hdep, getIntensity_locked hd]

/-- An enabled sample inside the lock threshold processed while the locked
flag is already set keeps the flag and fires nothing. -/
theorem effectRun_locked_already {lock : ℚ} {s : HapticState} {d : ℚ}
    (hil : s.isLocked = true) (hd : |d| ≤ lock) :
    (effectRun lock s true d).1.isLocked = true ∧
      (effectRun lock s true d).2 = [] := by
  rcases s with ⟨i, li, il, hc, pd⟩
  simp only at hil
  subst hil
  cases hc <;> by_cases hli : HapticIntensity.locked = li <;>
    simp [effectRun, getIntensity_locked hd, hli, intervalMsFor]

/-- Samples inside the lock threshold fire nothing and preserve the locked
invariant. -/
theorem hapticStep_stay {lock : ℚ} {s : HapticState} {d : ℚ}
    (hinv : LockedInv lock s) (hd : |d| ≤ lock) :
    LockedInv lock (hapticStep lock s true d).1 ∧
      (hapticStep lock s true d).2 = [] := by
  by_cases hdep : s.prevDeps = some (true, d)
  · rw [hapticStep, if_pos hdep]
    exact ⟨hinv, rfl⟩
  · rw [hapticStep, if_neg hdep]
    have h := effectRun_locked_already hinv.1 hd
    exact ⟨⟨h.1, d, rfl, hd⟩, h.2⟩

/-- Leaving the lock threshold clears the locked flag, fires no confirmation
pulse, and records the exit sample as the latest dependency pair. -/
theorem hapticStep_exit {lock : ℚ} {s : HapticState} {x : ℚ}
    (hinv : LockedInv lock s) (hx : lock < |x|) :
    (hapticStep lock s true x).1.isLocked = false ∧
    (hapticStep lock s true x).1.prevDeps = some (true, x) ∧
    confirmations (hapticStep lock s true x).2 = 0 := by
  rcases s with ⟨i, li, il, hc, pd⟩
  obtain ⟨hil, q, hpd, hq⟩ := hinv
  simp only at hil hpd
  subst hil hpd
  have hqx : q ≠ x := by
    intro he
    subst he
    exact absurd hq (not_le.mpr hx)
  have hdep : (some ((true : Bool), q) : Option (Bool × ℚ)) ≠ some (true, x) := by
    simp [hqx]
  have hne := getIntensity_ne_locked hx
  rw [hapticStep, if_neg hdep]
  cases hc <;>
    by_cases hli : getIntensity lock x = li <;>
      rcases hms : intervalMsFor (getIntensity lock x) with _ | ms <;>
        simp [effectRun, hne, hli, hms, confirmations, List.count_cons,
          List.count_nil, hne.symm] <;>
        simp_all

/-- Running a list of samples decomposes over append. -/
theorem hapticRun_append (lock : ℚ) (s : HapticState) (l1 l2 : List (Bool × ℚ)) :
    hapticRun lock s (l1 ++ l2) =
      ((hapticRun lock (hapticRun lock s l1).1 l2).1,
       (hapticRun lock s l1).2 ++ (hapticRun lock (hapticRun lock s l1).1 l2).2) := by
  induction l1 generalizing s with
  | nil => simp [hapticRun]
  | cons a l ih =>
    simp only [List.cons_append, hapticRun, List.append_eq]
    rw [ih]
    simp [List.append_assoc]

/-- A run of samples all inside the lock threshold fires no confirmation and
preserves the locked invariant. -/
theorem hapticRun_stay {lock : ℚ} (inside : List ℚ) {s : HapticState}
    (hinv : LockedInv lock s) (hin : ∀ d ∈ inside, |d| ≤ lock) :
    LockedInv lock (hapticRun lock s (inside.map (fun d => (true, d)))).1 ∧
    (hapticRun lock s (inside.map (fun d => (true, d)))).2 = [] := by
  induction inside generalizing s with
  | nil => exact ⟨hinv, rfl⟩
  | cons a l ih =>
    have ha : |a| ≤ lock := hin a (List.mem_cons_self a l)
    have hstep := hapticStep_stay hinv ha
    have hrest := ih hstep.1 (fun d hd => hin d (List.mem_cons_of_mem a hd))
    simp only [List.map_cons, hapticRun]
    exact ⟨hrest.1, by rw [hstep.2, hrest.2]; rfl⟩

/-- Invariant while the deviation stays outside the lock threshold: the
locked flag is clear and the last processed dependency pair was an enabled
sample outside the threshold. -/
def UnlockedInv (lock : ℚ) (s : HapticState) : Prop :=
  s.isLocked = false ∧ ∃ q, s.prevDeps = some (true, q) ∧ lock < |q|

/-- An enabled sample outside the lock threshold never sets the locked flag
and never fires a confirmation pulse. -/
theorem effectRun_not_locked {lock : ℚ} {s : HapticState} {d : ℚ}
    (hil : s.isLocked = false) (hd : lock < |d|) :
    (effectRun lock s true d).1.isLocked = false ∧
      confirmations (effectRun lock s true d).2 = 0 := by
  rcases s with ⟨i, li, il, hc, pd⟩
  simp only at hil
  subst hil
  have hne := getIntensity_ne_locked hd
  cases hc <;>
    by_cases hli : getIntensity lock d = li <;>
      rcases hms : intervalMsFor (getIntensity lock d) with _ | ms <;>
        simp [effectRun, hne, hli, hms, confirmations, List.count_cons,
          List.count_nil, hne.symm] <;>
        simp_all

/-- Samples outside the lock threshold preserve the unlocked invariant and
fire no confirmation pulse. -/
theorem hapticStep_outside {lock : ℚ} {s : HapticState} {d : ℚ}
    (hinv : UnlockedInv lock s) (hd : lock < |d|) :
    UnlockedInv lock (hapticStep lock s true d).1 ∧
      confirmations (hapticStep lock s true d).2 = 0 := by
  by_cases hdep : s.prevDeps = some (true, d)
  · rw [hapticStep, if_pos hdep]
    exact ⟨hinv, rfl⟩
  · rw [hapticStep, if_neg hdep]
    have h := effectRun_not_locked hinv.1 hd
    exact ⟨⟨h.1, d, rfl, hd⟩, h.2⟩

/-- A run of samples all outside the lock threshold fires no confirmation
and preserves the unlocked invariant. -/
theorem hapticRun_outside {lock : ℚ} (l : List ℚ) {s : HapticState}
    (hinv : UnlockedInv lock s) (hl : ∀ d ∈ l, lock < |d|) :
    UnlockedInv lock (hapticRun lock s (l.map (fun d => (true, d)))).1 ∧
    confirmations (hapticRun lock s (l.map (fun d => (true, d)))).2 = 0 := by
  induction l generalizing s with
  | nil => exact ⟨hinv, rfl⟩
  | cons a t ih =>
    have ha : lock < |a| := hl a (List.mem_cons_self a t)
    have hstep := hapticStep_outside hinv ha
    have hrest := ih hstep.1 (fun d hd => hl d (List.mem_cons_of_mem a hd))
    simp only [List.map_cons, hapticRun]
    refine ⟨hrest.1, ?_⟩
    have h1 := hstep.2
    have h2 := hrest.2
    rw [confirmations] at h1 h2 ⊢
    rw [List.count_append, h1, h2]

/-! ### Claim C6 -/

/-- Claim C6: a deviation sequence that enters the lock threshold, stays
within it for any number of samples and exits fires exactly one confirmation
pulse during the stay, and a later re-entry (after any number of samples
outside the threshold) fires exactly one more: two in total over entry, stay,
exit, outside samples and re-entry. -/
theorem C6_lock_confirmation_fires_once
    (lock : ℚ) (s : HapticState) (e x e2 : ℚ) (inside outside : List ℚ)
    (hs : s.isLocked = false)
    (hdep : ∀ q : ℚ, s.prevDeps = some (true, q) → lock < |q|)
    (he : |e| ≤ lock) (hin : ∀ d ∈ inside, |d| ≤ lock)
    (hx : lock < |x|) (hout : ∀ d ∈ outside, lock < |d|) (he2 : |e2| ≤ lock) :
    confirmations (hapticRun lock s ((e :: inside).map (fun d => (true, d)))).2 = 1 ∧
    confirmations (hapticRun lock s
      (((e :: inside) ++ (x :: outside) ++ [e2]).map (fun d => (true, d)))).2 = 2 := by
  have hdepe : s.prevDeps ≠ some (true, e) := by
    intro h
    exact absurd he (not_le.mpr (hdep e h))
  have hstep1 := hapticStep_enter hs hdepe he
  have hinv1 : LockedInv lock
      (⟨Option.none, s.lastIntensity, true, false, some (true, e)⟩ : HapticState) :=
    ⟨rfl, e, rfl, he⟩
  have hstay := hapticRun_stay inside hinv1 hin
  have hrun1 : hapticRun lock s ((e :: inside).map (fun d => (true, d))) =
      ((hapticRun lock (⟨Option.none, s.lastIntensity, true, false, some (true, e)⟩ :
          HapticState) (inside.map (fun d => (true, d)))).1,
       [HapticIntensity.locked] ++ (hapticRun lock
          (⟨Option.none, s.lastIntensity, true, false, some (true, e)⟩ : HapticState)
          (inside.map (fun d => (true, d)))).2) := by
    simp only [List.map_cons, hapticRun]
    rw [hstep1]
  have hpart1 : confirmations
      (hapticRun lock s ((e :: inside).map (fun d => (true, d)))).2 = 1 := by
    rw [hrun1]
    simp [confirmations, hstay.2]
  refine ⟨hpart1, ?_⟩
  have hinv2 : LockedInv lock
      (hapticRun lock s ((e :: inside).map (fun d => (true, d)))).1 := by
    rw [hrun1]
    exact hstay.1
  have hmap : (((e :: inside) ++ (x :: outside) ++ [e2]).map
        (fun d => ((true : Bool), d))) =
      ((e :: inside).map (fun d => (true, d)) ++ (x :: outside).map
        (fun d => (true, d))) ++ [(true, e2)] := by
    rw [List.map_append, List.map_append]
    rfl
  rw [hmap, hapticRun_append, hapticRun_append]
  have hB : UnlockedInv lock
        (hapticRun lock (hapticRun lock s ((e :: inside).map (fun d => (true, d)))).1
          ((x :: outside).map (fun d => (true, d)))).1 ∧
      confirmations
        (hapticRun lock (hapticRun lock s ((e :: inside).map (fun d => (true, d)))).1
          ((x :: outside).map (fun d => (true, d)))).2 = 0 := by
    generalize hs2 : (hapticRun lock s ((e :: inside).map (fun d => (true, d)))).1 = s2
      at hinv2 ⊢
    simp only [List.map_cons, hapticRun]
    have hexit := hapticStep_exit hinv2 hx
    have hu : UnlockedInv lock (hapticStep lock s2 true x).1 :=
      ⟨hexit.1, x, hexit.2.1, hx⟩
    have houtrun := hapticRun_outside outside hu hout
    refine ⟨houtrun.1, ?_⟩
    have h1 := hexit.2.2
    have h2 := houtrun.2
    rw [confirmations] at h1 h2 ⊢
    rw [List.count_append, h1, h2]
  have hC : confirmations (hapticRun lock
      (hapticRun lock (hapticRun lock s ((e :: inside).map (fun d => (true, d)))).1
        ((x :: outside).map (fun d => (true, d)))).1
      [(true, e2)]).2 = 1 := by
    have hinv3 := hB.1
    generalize hs3 : (hapticRun lock
        (hapticRun lock s ((e :: inside).map (fun d => (true, d)))).1
        ((x :: outside).map (fun d => (true, d)))).1 = s3 at hinv3 ⊢
    obtain ⟨hil3, q, hpd3, hq3⟩ := hinv3
    have hqe2 : q ≠ e2 := by
      intro h
      exact absurd he2 (not_le.mpr (h ▸ hq3))
    have hdep3 : s3.prevDeps ≠ some (true, e2) := by
      rw [hpd3]
      simp [hqe2]
    have hstep := hapticStep_enter hil3 hdep3 he2
    simp only [hapticRun]
    rw [hstep]
    rfl
  have hp1c := hpart1
  have hBc := hB.2
  rw [confirmations] at hp1c hBc hC ⊢
  rw [List.count_append, List.count_append, hp1c, hBc, hC]

/-- Witness for C6 at lock threshold 0.5: entry 0.4, three inside samples,
exit 3, two further outside samples 6 and 11, re-entry 0.1, from the mount
state. -/
theorem C6_witness :
    confirmations (hapticRun (1/2) hapticInit
      (((2/5 : ℚ) :: [3/10, 1/5, 3/10]).map (fun d => (true, d)))).2 = 1 ∧
    confirmations (hapticRun (1/2) hapticInit
      ((((2/5 : ℚ) :: [3/10, 1/5, 3/10]) ++ ((3 : ℚ) :: [6, 11]) ++ [1/10]).map
        (fun d => (true, d)))).2 = 2 :=
  C6_lock_confirmation_fires_once (1/2) hapticInit (2/5) 3 (1/10)
    [3/10, 1/5, 3/10] [6, 11]
    rfl
    (by intro q h; simp [hapticInit] at h)
    (by rw [abs_le]; norm_num)
    (by intro d hd; fin_cases hd <;> rw [abs_le] <;> norm_num)
    (by rw [abs_of_nonneg (by norm_num : (0:ℚ) ≤ 3)]; norm_num)
    (by intro d hd; fin_cases hd <;>
      rw [abs_of_nonneg (by norm_num)] <;> norm_num)
    (by rw [abs_le]; norm_num)

/-! ### Claim C7 -/

/-- Claim C7 evaluated at the failing input: after a sample with deviation 7°
(intensity `approaching`) the 500 ms periodic timer is running and the
immediate transition pulse has fired, but the very next sample with deviation
8° (same intensity classification) leaves NO timer running and fires nothing:
the previous run's effect cleanup clears the interval and the unchanged
intensity prevents the body from restarting it, contradicting the claim that
the timer keeps firing while same-intensity samples arrive. -/
theorem C7_periodic_timer_dies_on_next_sample :
    ((hapticRun (1/2) hapticInit [(true, 7)]).1.interval = some 500 ∧
      (hapticRun (1/2) hapticInit [(true, 7)]).2 = [HapticIntensity.approaching]) ∧
    ((hapticRun (1/2) hapticInit [(true, 7), (true, 8)]).1.interval = Option.none ∧
      (hapticRun (1/2) hapticInit [(true, 7), (true, 8)]).2
        = [HapticIntensity.approaching]) := by
  have g7 : getIntensity (1/2) 7 = HapticIntensity.approaching := by
    unfold getIntensity
    rw [abs_of_nonneg (by norm_num : (0:ℚ) ≤ 7)]
    norm_num
  have g8 : getIntensity (1/2) 8 = HapticIntensity.approaching := by
    unfold getIntensity
    rw [abs_of_nonneg (by norm_num : (0:ℚ) ≤ 8)]
    norm_num
  have step1 : hapticStep (1/2) hapticInit true 7 =
      (⟨some 500, HapticIntensity.approaching, false, true, some (true, 7)⟩,
       [HapticIntensity.approaching]) := by
    simp only [hapticStep, effectRun, hapticInit, g7, intervalMsFor]
    all_goals simp
  have h78 : (some ((true : Bool), (7 : ℚ)) : Option (Bool × ℚ)) ≠ some (true, 8) := by
    norm_num
  have step2 : hapticStep (1/2)
      (⟨some 500, HapticIntensity.approaching, false, true, some (true, 7)⟩ : HapticState)
      true 8 =
      (⟨Option.none, HapticIntensity.approaching, false, true, some (true, 8)⟩, []) := by
    simp only [hapticStep, effectRun, g8, intervalMsFor, if_neg h78]
    all_goals simp
  simp only [hapticRun]
  rw [step1, step2]
  simp

/-! ### PVWatts sweep lemmas -/

/-- The winner-selection fold returns its seed or a list element, never less
productive than the seed, and at least as productive as every element. -/
theorem pickBest_spec (l : List (ℚ × ℚ)) (b : ℚ × ℚ) :
    (pickBest l b = b ∨ pickBest l b ∈ l) ∧
    b.2 ≤ (pickBest l b).2 ∧ ∀ r ∈ l, r.2 ≤ (pickBest l b).2 := by
  induction l generalizing b with
  | nil =>
    exact ⟨Or.inl rfl, le_refl _, fun r hr => absurd hr (List.not_mem_nil r)⟩
  | cons a rest ih =>
    simp only [pickBest]
    obtain ⟨hmem, hle, hall⟩ := ih (if b.2 < a.2 then a else b)
    have hbb : b.2 ≤ (if b.2 < a.2 then a else b).2 := by
      split_ifs with h
      · exact le_of_lt h
      · exact le_refl _
    have hab : a.2 ≤ (if b.2 < a.2 then a else b).2 := by
      split_ifs with h
      · exact le_refl _
      · exact not_lt.mp h
    refine ⟨?_, le_trans hbb hle, ?_⟩
    · rcases hmem with h | h
      · rw [h]
        split_ifs with hc
        · exact Or.inr (List.mem_cons_self a rest)
        · exact Or.inl rfl
      · exact Or.inr (List.mem_cons_of_mem a h)
    · intro r hr
      rcases List.mem_cons.mp hr with h | h
      · exact le_trans (h ▸ hab) hle
      · exact hall r h

/-- When no candidate strictly beats the seed, the fold keeps the seed. -/
theorem pickBest_const (l : List (ℚ × ℚ)) (b : ℚ × ℚ)
    (h : ∀ r ∈ l, r.2 ≤ b.2) : pickBest l b = b := by
  induction l with
  | nil => rfl
  | cons a rest ih =>
    simp only [pickBest]
    rw [if_neg (not_lt.mpr (h a (List.mem_cons_self a rest)))]
    exact ih (fun r hr => h r (List.mem_cons_of_mem a hr))

/-- The base angle `|latitude|` is always among the swept candidates when the
latitude is geographically valid. -/
theorem base_mem_testAngles {lat : ℚ} (h : |lat| ≤ 90) : |lat| ∈ testAngles lat := by
  unfold testAngles
  rw [List.mem_filter]
  refine ⟨by simp, ?_⟩
  rw [decide_eq_true_eq]
  exact ⟨abs_nonneg lat, h⟩

/-- Candidate productions are nonnegative when successful fetches are. -/
theorem productionOf_nonneg {fetch : ℚ → Option ℚ}
    (h : ∀ a p, fetch a = some p → 0 ≤ p) (a : ℚ) : 0 ≤ productionOf fetch a := by
  unfold productionOf
  rcases hf : fetch a with _ | p
  · simp
  · simpa using h a p hf

/-- Reading back a freshly written cache key. -/
theorem cacheGet_set (c : TiltCache) (k : ℚ × ℚ) (e : CacheEntry) :
    cacheGet (cacheSet c k e) k = some e := by
  simp [cacheGet, cacheSet, List.find?]

/-- Unfolding `getOptimalTiltFromPVWatts` on a cache miss without an outer
failure: the sweep runs, the winner is cached and returned live. -/
theorem getOptimalTilt_miss (cache : TiltCache) (now lat lon : ℚ)
    (fetch : ℚ → Option ℚ)
    (h : cacheGet cache (getCacheKey lat lon) = Option.none) :
    getOptimalTiltFromPVWatts cache now lat lon fetch false =
      (⟨(pickBest ((testAngles lat).map (fun t => (t, productionOf fetch t))) (|lat|, 0)).1,
        (pickBest ((testAngles lat).map (fun t => (t, productionOf fetch t))) (|lat|, 0)).2,
        Confidence.live⟩,
       cacheSet cache (getCacheKey lat lon)
         ⟨(pickBest ((testAngles lat).map (fun t => (t, productionOf fetch t))) (|lat|, 0)).1,
          now⟩,
       (testAngles lat).length) := by
  unfold getOptimalTiltFromPVWatts
  dsimp only
  rw [h]
  rfl

/-- Unfolding `getOptimalTiltFromPVWatts` on a cache miss when the sweep as a
whole throws: the formula fallback. -/
theorem getOptimalTilt_outerFail (cache : TiltCache) (now lat lon : ℚ)
    (fetch : ℚ → Option ℚ)
    (h : cacheGet cache (getCacheKey lat lon) = Option.none) :
    getOptimalTiltFromPVWatts cache now lat lon fetch true =
      (⟨|lat| * (87/100), 0, Confidence.fallback⟩, cache, 0) := by
  unfold getOptimalTiltFromPVWatts
  dsimp only
  rw [h]
  rfl

/-- Unfolding `getOptimalTiltFromPVWatts` on a fresh cache hit. -/
theorem getOptimalTilt_hit (cache : TiltCache) (now lat lon : ℚ)
    (fetch : ℚ → Option ℚ) (outerFail : Bool) (e : CacheEntry)
    (h : cacheGet cache (getCacheKey lat lon) = some e)
    (hfresh : now - e.timestamp < CACHE_DURATION) :
    getOptimalTiltFromPVWatts cache now lat lon fetch outerFail =
      (⟨e.tilt, 0, Confidence.cached⟩, cache, 0) := by
  unfold getOptimalTiltFromPVWatts
  dsimp only
  rw [h]
  dsimp only
  rw [if_pos hfresh]

/-- Unfolding `getOptimalTiltFromPVWatts` on an expired cache hit: behaves
like a miss. -/
theorem getOptimalTilt_expired (cache : TiltCache) (now lat lon : ℚ)
    (fetch : ℚ → Option ℚ) (e : CacheEntry)
    (h : cacheGet cache (getCacheKey lat lon) = some e)
    (hstale : ¬ now - e.timestamp < CACHE_DURATION) :
    getOptimalTiltFromPVWatts cache now lat lon fetch false =
      (⟨(pickBest ((testAngles lat).map (fun t => (t, productionOf fetch t))) (|lat|, 0)).1,
        (pickBest ((testAngles lat).map (fun t => (t, productionOf fetch t))) (|lat|, 0)).2,
        Confidence.live⟩,
       cacheSet cache (getCacheKey lat lon)
         ⟨(pickBest ((testAngles lat).map (fun t => (t, productionOf fetch t))) (|lat|, 0)).1,
          now⟩,
       (testAngles lat).length) := by
  unfold getOptimalTiltFromPVWatts
  dsimp only
  rw [h]
  dsimp only
  rw [if_neg hstale]
  rfl


/-! ### Claim C5 -/

/-- Claim C5 counterexample: with every candidate request failing (a network
failure during the estimation), the call resolves with the unswept base angle
40 and confidence `live`, not with the NREL approximation 0.87 × 40 = 34.8
tagged `fallback`. -/
theorem C5_counterexample :
    (getOptimalTiltFromPVWatts [] 0 40 0 (fun _ => Option.none) false).1.tilt = 40 ∧
    (getOptimalTiltFromPVWatts [] 0 40 0 (fun _ => Option.none) false).1.confidence
      = Confidence.live ∧
    (getOptimalTiltFromPVWatts [] 0 40 0 (fun _ => Option.none) false).1.confidence
      ≠ Confidence.fallback ∧
    (getOptimalTiltFromPVWatts [] 0 40 0 (fun _ => Option.none) false).1.tilt
      ≠ |(40 : ℚ)| * (87/100) := by
  have hmiss : cacheGet ([] : TiltCache) (getCacheKey 40 0) = Option.none := rfl
  have hpb : pickBest ((testAngles 40).map
      (fun t => (t, productionOf (fun _ => Option.none) t))) (|(40 : ℚ)|, 0)
      = (|(40 : ℚ)|, 0) :=
    pickBest_const _ _ (by
      intro r hr
      rcases List.mem_map.mp hr with ⟨a, -, rfl⟩
      simp [productionOf])
  have habs : |(40 : ℚ)| = 40 := abs_of_nonneg (by norm_num)
  rw [getOptimalTilt_miss [] 0 40 0 (fun _ => Option.none) hmiss, hpb, habs]
  refine ⟨rfl, rfl, by simp, by norm_num⟩

/-- Claim C5 amended: the call always resolves; a failure of the sweep as a
whole (outside the per-candidate handlers) resolves to the NREL linear
approximation `0.87 × |latitude|` tagged `fallback`, while per-candidate
network or parse failures are swallowed inside the sweep and the call
resolves with confidence `live`. -/
theorem C5_fallback_only_on_outer_failure (cache : TiltCache) (now lat lon : ℚ)
    (fetch : ℚ → Option ℚ)
    (hmiss : cacheGet cache (getCacheKey lat lon) = Option.none) :
    (getOptimalTiltFromPVWatts cache now lat lon fetch true).1 =
      ⟨|lat| * (87/100), 0, Confidence.fallback⟩ ∧
    (getOptimalTiltFromPVWatts cache now lat lon fetch false).1.confidence =
      Confidence.live := by
  constructor
  · rw [getOptimalTilt_outerFail cache now lat lon fetch hmiss]
  · rw [getOptimalTilt_miss cache now lat lon fetch hmiss]

/-- Witness for the amended C5 at latitude 40, empty cache, an all-failing
fetch oracle. -/
theorem C5_witness :
    (getOptimalTiltFromPVWatts [] 0 40 0 (fun _ => Option.none) true).1 =
      ⟨|(40 : ℚ)| * (87/100), 0, Confidence.fallback⟩ ∧
    (getOptimalTiltFromPVWatts [] 0 40 0 (fun _ => Option.none) false).1.confidence =
      Confidence.live :=
  C5_fallback_only_on_outer_failure [] 0 40 0 (fun _ => Option.none) rfl

/-! ### Claim C10 -/

/-- Claim C10: when every candidate request of the sweep fails, the call
resolves live with the base angle `|latitude|` and zero production, that tilt
is cached, and a second call within the TTL serves it from the cache. -/
theorem C10_all_fail_live_base (cache : TiltCache) (now now2 lat lon : ℚ)
    (hmiss : cacheGet cache (getCacheKey lat lon) = Option.none)
    (httl : now2 - now < CACHE_DURATION) :
    (getOptimalTiltFromPVWatts cache now lat lon (fun _ => Option.none) false).1 =
      ⟨|lat|, 0, Confidence.live⟩ ∧
    cacheGet (getOptimalTiltFromPVWatts cache now lat lon (fun _ => Option.none) false).2.1
      (getCacheKey lat lon) = some ⟨|lat|, now⟩ ∧
    (getOptimalTiltFromPVWatts
        (getOptimalTiltFromPVWatts cache now lat lon (fun _ => Option.none) false).2.1
        now2 lat lon (fun _ => Option.none) false).1 =
      ⟨|lat|, 0, Confidence.cached⟩ := by
  have hpb : pickBest ((testAngles lat).map
      (fun t => (t, productionOf (fun _ => Option.none) t))) (|lat|, 0) = (|lat|, 0) :=
    pickBest_const _ _ (by
      intro r hr
      rcases List.mem_map.mp hr with ⟨a, -, rfl⟩
      simp [productionOf])
  rw [getOptimalTilt_miss cache now lat lon (fun _ => Option.none) hmiss, hpb]
  refine ⟨rfl, cacheGet_set cache (getCacheKey lat lon) ⟨|lat|, now⟩, ?_⟩
  rw [getOptimalTilt_hit _ now2 lat lon (fun _ => Option.none) false ⟨|lat|, now⟩
    (cacheGet_set cache (getCacheKey lat lon) ⟨|lat|, now⟩) httl]

/-- Witness for C10 at latitude 40, empty cache, times 0 and 1. -/
theorem C10_witness :
    (getOptimalTiltFromPVWatts [] 0 40 0 (fun _ => Option.none) false).1 =
      ⟨|(40 : ℚ)|, 0, Confidence.live⟩ ∧
    cacheGet (getOptimalTiltFromPVWatts [] 0 40 0 (fun _ => Option.none) false).2.1
      (getCacheKey 40 0) = some ⟨|(40 : ℚ)|, 0⟩ ∧
    (getOptimalTiltFromPVWatts
        (getOptimalTiltFromPVWatts [] 0 40 0 (fun _ => Option.none) false).2.1
        1 40 0 (fun _ => Option.none) false).1 =
      ⟨|(40 : ℚ)|, 0, Confidence.cached⟩ :=
  C10_all_fail_live_base [] 0 1 40 0 rfl (by norm_num [CACHE_DURATION])

/-! ### Claim C8 -/

/-- Claim C8: after a successful (non-hit, non-throwing) fetch, a second call
whose coordinates round to the same cache key returns the same tilt as cached
with zero network requests while the TTL has not elapsed, and runs a fresh
sweep with at least one network request once the TTL has elapsed. -/
theorem C8_cache_roundtrip (cache : TiltCache) (now1 now2 lat lon lat2 lon2 : ℚ)
    (fetch fetch2 : ℚ → Option ℚ)
    (hmiss : cacheGet cache (getCacheKey lat lon) = Option.none)
    (hkey : getCacheKey lat2 lon2 = getCacheKey lat lon) :
    (now2 - now1 < CACHE_DURATION →
      (getOptimalTiltFromPVWatts
          (getOptimalTiltFromPVWatts cache now1 lat lon fetch false).2.1
          now2 lat2 lon2 fetch2 false).1.tilt =
        (getOptimalTiltFromPVWatts cache now1 lat lon fetch false).1.tilt ∧
      (getOptimalTiltFromPVWatts
          (getOptimalTiltFromPVWatts cache now1 lat lon fetch false).2.1
          now2 lat2 lon2 fetch2 false).1.confidence = Confidence.cached ∧
      (getOptimalTiltFromPVWatts
          (getOptimalTiltFromPVWatts cache now1 lat lon fetch false).2.1
          now2 lat2 lon2 fetch2 false).2.2 = 0) ∧
    (¬ now2 - now1 < CACHE_DURATION → |lat2| ≤ 90 →
      (getOptimalTiltFromPVWatts
          (getOptimalTiltFromPVWatts cache now1 lat lon fetch false).2.1
          now2 lat2 lon2 fetch2 false).2.2 = (testAngles lat2).length ∧
      0 < (getOptimalTiltFromPVWatts
          (getOptimalTiltFromPVWatts cache now1 lat lon fetch false).2.1
          now2 lat2 lon2 fetch2 false).2.2) := by
  rw [getOptimalTilt_miss cache now1 lat lon fetch hmiss]
  have hget : cacheGet
      (cacheSet cache (getCacheKey lat lon)
        ⟨(pickBest ((testAngles lat).map (fun t => (t, productionOf fetch t))) (|lat|, 0)).1,
         now1⟩)
      (getCacheKey lat2 lon2) = some
        ⟨(pickBest ((testAngles lat).map (fun t => (t, productionOf fetch t))) (|lat|, 0)).1,
         now1⟩ := by
    rw [hkey]
    exact cacheGet_set _ _ _
  constructor
  · intro hfresh
    rw [getOptimalTilt_hit _ now2 lat2 lon2 fetch2 false _ hget hfresh]
    exact ⟨rfl, rfl, rfl⟩
  · intro hstale hlat2
    rw [getOptimalTilt_expired _ now2 lat2 lon2 fetch2 _ hget hstale]
    refine ⟨rfl, ?_⟩
    have hne : testAngles lat2 ≠ [] :=
      List.ne_nil_of_mem (base_mem_testAngles hlat2)
    simpa using List.length_pos.mpr hne

/-- Witness for C8: first call at time 0 for (40, 10); a second call at time
10 is served cached with zero requests, and a call at time 86400000 (the TTL)
re-runs the sweep. -/
theorem C8_witness :
    ((getOptimalTiltFromPVWatts
        (getOptimalTiltFromPVWatts [] 0 40 10 (fun a => some a) false).2.1
        10 40 10 (fun a => some a) false).1.tilt =
      (getOptimalTiltFromPVWatts [] 0 40 10 (fun a => some a) false).1.tilt ∧
     (getOptimalTiltFromPVWatts
        (getOptimalTiltFromPVWatts [] 0 40 10 (fun a => some a) false).2.1
        10 40 10 (fun a => some a) false).1.confidence = Confidence.cached ∧
     (getOptimalTiltFromPVWatts
        (getOptimalTiltFromPVWatts [] 0 40 10 (fun a => some a) false).2.1
        10 40 10 (fun a => some a) false).2.2 = 0) ∧
    ((getOptimalTiltFromPVWatts
        (getOptimalTiltFromPVWatts [] 0 40 10 (fun a => some a) false).2.1
        86400000 40 10 (fun a => some a) false).2.2 = (testAngles 40).length ∧
     0 < (getOptimalTiltFromPVWatts
        (getOptimalTiltFromPVWatts [] 0 40 10 (fun a => some a) false).2.1
        86400000 40 10 (fun a => some a) false).2.2) :=
  ⟨(C8_cache_roundtrip [] 0 10 40 10 40 10 (fun a => some a) (fun a => some a) rfl rfl).1
      (by norm_num [CACHE_DURATION]),
   (C8_cache_roundtrip [] 0 86400000 40 10 40 10 (fun a => some a) (fun a => some a)
      rfl rfl).2
      (by norm_num [CACHE_DURATION])
      (by rw [abs_of_nonneg (by norm_num : (0:ℚ) ≤ 40)]; norm_num)⟩

/-! ### Claim C3 -/

/-- Claim C3 counterexample: at latitude 3°, the code sweeps only the 3
candidates [3, 8, 13] because out-of-range candidates are dropped by the
filter, while the claimed clipping of the 5 offsets to [0, 90] would give
[0, 0, 3, 8, 13]; in particular 0° is claimed to be swept but is not. -/
theorem C3_counterexample :
    testAngles 3 = [3, 8, 13] ∧ (testAngles 3).length = 3 ∧
    specClippedAngles 3 = [0, 0, 3, 8, 13] ∧ (specClippedAngles 3).length = 5 ∧
    (0 : ℚ) ∉ testAngles 3 ∧ (0 : ℚ) ∈ specClippedAngles 3 := by
  have h3 : |(3 : ℚ)| = 3 := abs_of_nonneg (by norm_num)
  have ht : testAngles 3 = [3, 8, 13] := by
    norm_num [testAngles, h3, List.filter]
  have hc : specClippedAngles 3 = [0, 0, 3, 8, 13] := by
    norm_num [specClippedAngles, h3]
  rw [ht, hc]
  refine ⟨rfl, rfl, rfl, rfl, by norm_num, by norm_num⟩

/-- Claim C3 amended: on a cache miss the sweep tests the candidates
`|lat| - 10, |lat| - 5, |lat|, |lat| + 5, |lat| + 10` filtered (not clipped)
to [0, 90] — between 3 and 5 candidates — queries each and returns a swept
candidate whose yield is at least the yield of every swept candidate. -/
theorem C3_filtered_sweep_max (now lat lon : ℚ) (fetch : ℚ → Option ℚ)
    (hlat : |lat| ≤ 90) (hpos : ∀ a p, fetch a = some p → 0 ≤ p) :
    (getOptimalTiltFromPVWatts [] now lat lon fetch false).1.tilt ∈ testAngles lat ∧
    ∀ a ∈ testAngles lat,
      productionOf fetch a ≤
        productionOf fetch (getOptimalTiltFromPVWatts [] now lat lon fetch false).1.tilt := by
  have hmiss : cacheGet ([] : TiltCache) (getCacheKey lat lon) = Option.none := rfl
  rw [getOptimalTilt_miss [] now lat lon fetch hmiss]
  obtain ⟨hmem, hle, hall⟩ := pickBest_spec
    ((testAngles lat).map (fun t => (t, productionOf fetch t))) (|lat|, 0)
  dsimp only
  rcases hmem with hb | hb
  · constructor
    · rw [hb]
      exact base_mem_testAngles hlat
    · intro a ha
      have h1 : productionOf fetch a ≤
          (pickBest ((testAngles lat).map (fun t => (t, productionOf fetch t)))
            (|lat|, 0)).2 :=
        hall (a, productionOf fetch a) (List.mem_map.mpr ⟨a, ha, rfl⟩)
      rw [hb] at h1
      have h0 : 0 ≤ productionOf fetch
          ((pickBest ((testAngles lat).map (fun t => (t, productionOf fetch t)))
            (|lat|, 0)).1) :=
        productionOf_nonneg hpos _
      exact le_trans (by simpa using h1) h0
  · rcases List.mem_map.mp hb with ⟨t, ht, hbt⟩
    have hb1 : (pickBest ((testAngles lat).map (fun t => (t, productionOf fetch t)))
        (|lat|, 0)).1 = t := by rw [← hbt]
    have hb2 : (pickBest ((testAngles lat).map (fun t => (t, productionOf fetch t)))
        (|lat|, 0)).2 = productionOf fetch t := by rw [← hbt]
    constructor
    · rw [hb1]
      exact ht
    · intro a ha
      have h1 := hall (a, productionOf fetch a) (List.mem_map.mpr ⟨a, ha, rfl⟩)
      rw [hb2] at h1
      rw [hb1]
      simpa using h1

/-- Witness for the amended C3 at latitude 40 with a constant-yield oracle:
the returned tilt is swept and the swept candidate 30 does not outproduce
it. -/
theorem C3_witness :
    (getOptimalTiltFromPVWatts [] 0 40 10 (fun _ => some 5) false).1.tilt
      ∈ testAngles 40 ∧
    productionOf (fun _ => some 5) 30 ≤ productionOf (fun _ => some 5)
      ((getOptimalTiltFromPVWatts [] 0 40 10 (fun _ => some 5) false).1.tilt) := by
  have h40 : |(40 : ℚ)| = 40 := abs_of_nonneg (by norm_num)
  have hmain := C3_filtered_sweep_max 0 40 10 (fun _ => some 5)
    (by rw [h40]; norm_num)
    (by intro a p h; rw [← Option.some.inj h]; norm_num)
  refine ⟨hmain.1, hmain.2 30 ?_⟩
  norm_num [testAngles, h40, List.filter]

/-! ### Winter-priority selection lemmas -/

/-- The default of `getLastD` is irrelevant on a nonempty list: the value is
a member. -/
theorem getLastD_mem_of_ne_nil {α : Type*} {l : List α} (h : l ≠ []) (d : α) :
    l.getLastD d ∈ l := by
  induction l generalizing d with
  | nil => exact absurd rfl h
  | cons x xs ih =>
    rw [List.getLastD_cons]
    cases xs with
    | nil => simp [List.getLastD]
    | cons y ys => exact List.mem_cons_of_mem x (ih (by simp) x)

/-- In a list sorted by a relation, every member is related to the last
element (or is the last element). -/
theorem pairwise_rel_getLastD {α : Type*} {R : α → α → Prop} {l : List α}
    (hp : List.Pairwise R l) (d : α) :
    ∀ a ∈ l, a = l.getLastD d ∨ R a (l.getLastD d) := by
  induction l generalizing d with
  | nil => exact fun a ha => absurd ha (List.not_mem_nil a)
  | cons x xs ih =>
    intro a ha
    rw [List.getLastD_cons]
    rcases List.mem_cons.mp ha with rfl | hmem
    · cases xs with
      | nil => exact Or.inl rfl
      | cons y ys =>
        exact Or.inr ((List.pairwise_cons.mp hp).1 _
          (getLastD_mem_of_ne_nil (by simp) a))
    · cases xs with
      | nil => exact absurd hmem (List.not_mem_nil a)
      | cons y ys => exact ih (List.pairwise_cons.mp hp).2 x a hmem

/-- Every winter-sweep result carries a tested angle as its tilt. -/
theorem tilt_mem_winterTestAngles {lat : ℚ} {fetch : ℚ → Option (ℚ × ℚ)}
    {r : WinterCandidate} (h : r ∈ winterResults lat fetch) :
    r.tilt ∈ winterTestAngles lat := by
  rcases List.mem_map.mp h with ⟨a, ha, hr⟩
  rcases hfa : fetch a with _ | p <;> rw [hfa] at hr <;> rw [← hr] <;> exact ha

/-- The base angle is among the winter-tested angles for a valid latitude. -/
theorem base_mem_winterTestAngles {lat : ℚ} (h : |lat| ≤ 90) :
    |lat| ∈ winterTestAngles lat := by
  unfold winterTestAngles
  rw [List.mem_filter]
  refine ⟨?_, ?_⟩
  · exact List.mem_map.mpr ⟨0, by norm_num, by ring⟩
  · rw [decide_eq_true_eq]
    exact ⟨abs_nonneg lat, h⟩

/-- Every winter-tested angle is at least the base angle. -/
theorem winterTestAngles_ge_base {lat : ℚ} {a : ℚ} (h : a ∈ winterTestAngles lat) :
    |lat| ≤ a := by
  unfold winterTestAngles at h
  rcases List.mem_filter.mp h with ⟨hm, -⟩
  rcases List.mem_map.mp hm with ⟨o, ho, rfl⟩
  have : (0 : ℚ) ≤ o := by
    fin_cases ho <;> norm_num
  linarith

/-! ### Claim C2 -/

/-- Claim C2 amended: given any per-candidate (June, December) results for
the tested angles, the winter-priority selection returns the steepest tested
angle whose June yield is at least its December yield AND whose December
yield is strictly positive, and returns the shallowest tested angle when no
candidate satisfies both conditions. -/
theorem C2_winter_steepest_needs_positive_december
    (lat : ℚ) (fetch : ℚ → Option (ℚ × ℚ)) (hlat : |lat| ≤ 90) :
    ((∃ r ∈ winterResults lat fetch, winterValid r) →
      ∃ r ∈ winterResults lat fetch, winterValid r ∧
        r.tilt = (getWinterPriorityTilt lat fetch).1 ∧
        ∀ r2 ∈ winterResults lat fetch, winterValid r2 →
          r2.tilt ≤ (getWinterPriorityTilt lat fetch).1) ∧
    ((∀ r ∈ winterResults lat fetch, ¬ winterValid r) →
      (getWinterPriorityTilt lat fetch).1 ∈ winterTestAngles lat ∧
      ∀ r ∈ winterResults lat fetch, (getWinterPriorityTilt lat fetch).1 ≤ r.tilt) := by
  have hperm : List.Perm (winterSortDesc (winterResults lat fetch))
      (winterResults lat fetch) :=
    List.perm_insertionSort tiltGE _
  have hsorted : List.Pairwise tiltGE (winterSortDesc (winterResults lat fetch)) :=
    List.sorted_insertionSort tiltGE _
  have hGW : (getWinterPriorityTilt lat fetch).1 =
      (winterPickBest (winterSortDesc (winterResults lat fetch))).tilt := rfl
  rcases hfind : (winterSortDesc (winterResults lat fetch)).find?
      (fun r => decide (winterValid r)) with _ | r
  · have hnone := List.find?_eq_none.mp hfind
    have hpick : winterPickBest (winterSortDesc (winterResults lat fetch)) =
        (winterSortDesc (winterResults lat fetch)).getLastD ⟨0, 0, 0⟩ := by
      unfold winterPickBest
      rw [hfind]
    constructor
    · rintro ⟨r, hrR, hv⟩
      have h1 := hnone r (hperm.mem_iff.mpr hrR)
      rw [decide_eq_true_eq] at h1
      exact absurd hv h1
    · intro hall
      have hRne : winterResults lat fetch ≠ [] := by
        intro h
        have hlen := congrArg List.length h
        rw [winterResults, List.length_map] at hlen
        simp only [List.length_nil] at hlen
        have hbase := base_mem_winterTestAngles hlat
        rw [List.length_eq_zero] at hlen
        rw [hlen] at hbase
        exact List.not_mem_nil _ hbase
      have hSne : winterSortDesc (winterResults lat fetch) ≠ [] := by
        intro h
        apply hRne
        have hlen := hperm.length_eq
        rw [h] at hlen
        exact List.length_eq_zero.mp hlen.symm
      have hlastS := getLastD_mem_of_ne_nil hSne (⟨0, 0, 0⟩ : WinterCandidate)
      have hlastR := hperm.mem_iff.mp hlastS
      constructor
      · rw [hGW, hpick]
        exact tilt_mem_winterTestAngles hlastR
      · intro r hrR
        have hrS := hperm.mem_iff.mpr hrR
        rcases pairwise_rel_getLastD hsorted ⟨0, 0, 0⟩ r hrS with he | hrel
        · rw [hGW, hpick, ← he]
        · rw [hGW, hpick]
          exact hrel
  · have hvr : winterValid r := by
      have h1 := List.find?_some hfind
      rwa [decide_eq_true_eq] at h1
    have hrS : r ∈ winterSortDesc (winterResults lat fetch) :=
      List.mem_of_find?_eq_some hfind
    have hrR : r ∈ winterResults lat fetch := hperm.mem_iff.mp hrS
    have hpick : winterPickBest (winterSortDesc (winterResults lat fetch)) = r := by
      unfold winterPickBest
      rw [hfind]
    obtain ⟨hpr, as, bs, hS, has⟩ := List.find?_eq_some.mp hfind
    constructor
    · rintro -
      refine ⟨r, hrR, hvr, by rw [hGW, hpick], ?_⟩
      intro r2 hr2R hv2
      have hr2S := hperm.mem_iff.mpr hr2R
      rw [hGW, hpick]
      rw [hS] at hr2S hsorted
      rcases List.mem_append.mp hr2S with h2as | h2rbs
      · have h2 := has r2 h2as
        rw [Bool.not_eq_eq_eq_not, Bool.not_true, decide_eq_false_iff_not] at h2
        exact absurd hv2 h2
      · rcases List.mem_cons.mp h2rbs with rfl | h2bs
        · exact le_refl _
        · have hp2 := (List.pairwise_append.mp hsorted).2.1
          exact (List.pairwise_cons.mp hp2).1 r2 h2bs
    · intro hall
      exact absurd hvr (hall r hrR)

/-- Claim C2 counterexample: at latitude 40° with every candidate reporting
June yield 1 and December yield 0, every candidate has June ≥ December, so
the claim picks the steepest tested angle 65°; the code additionally requires
a strictly positive December yield, rejects every candidate and returns the
shallowest tested angle 40°. -/
theorem C2_counterexample :
    (getWinterPriorityTilt 40 (fun _ => some (1, 0))).1 = 40 ∧
    specWinterTilt 40 (fun _ => some (1, 0)) = 65 ∧
    (getWinterPriorityTilt 40 (fun _ => some (1, 0))).1 ≠
      specWinterTilt 40 (fun _ => some (1, 0)) := by
  have h40 : |(40 : ℚ)| = 40 := abs_of_nonneg (by norm_num)
  have hang : winterTestAngles 40 = [40, 45, 50, 55, 60, 65] := by
    norm_num [winterTestAngles, h40, List.filter]
  have hres : winterResults 40 (fun _ => some (1, 0)) =
      [⟨40, 1, 0⟩, ⟨45, 1, 0⟩, ⟨50, 1, 0⟩, ⟨55, 1, 0⟩, ⟨60, 1, 0⟩, ⟨65, 1, 0⟩] := by
    rw [winterResults, hang]
    rfl
  have hsort : winterSortDesc
      [⟨40, 1, 0⟩, ⟨45, 1, 0⟩, ⟨50, 1, 0⟩, ⟨55, 1, 0⟩, ⟨60, 1, 0⟩, ⟨65, 1, 0⟩] =
      [⟨65, 1, 0⟩, ⟨60, 1, 0⟩, ⟨55, 1, 0⟩, ⟨50, 1, 0⟩, ⟨45, 1, 0⟩, ⟨40, 1, 0⟩] := by
    norm_num [winterSortDesc, List.insertionSort, List.orderedInsert, tiltGE]
  have hpickCode : winterPickBest
      [⟨65, 1, 0⟩, ⟨60, 1, 0⟩, ⟨55, 1, 0⟩, ⟨50, 1, 0⟩, ⟨45, 1, 0⟩, ⟨40, 1, 0⟩] =
      ⟨40, 1, 0⟩ := by
    norm_num [winterPickBest, winterValid, List.find?, List.getLastD]
  have hpickSpec : specWinterPickBest
      [⟨65, 1, 0⟩, ⟨60, 1, 0⟩, ⟨55, 1, 0⟩, ⟨50, 1, 0⟩, ⟨45, 1, 0⟩, ⟨40, 1, 0⟩] =
      ⟨65, 1, 0⟩ := by
    norm_num [specWinterPickBest, List.find?]
  have h1 : (getWinterPriorityTilt 40 (fun _ => some (1, 0))).1 =
      (winterPickBest (winterSortDesc (winterResults 40 (fun _ => some (1, 0))))).tilt :=
    rfl
  have h2 : specWinterTilt 40 (fun _ => some (1, 0)) =
      (specWinterPickBest
        (winterSortDesc (winterResults 40 (fun _ => some (1, 0))))).tilt := rfl
  rw [h1, h2, hres, hsort, hpickCode, hpickSpec]
  norm_num

/-- Witness for the amended C2: with no valid candidate (December yields all
zero) the returned tilt is one of the tested angles. -/
theorem C2_witness :
    (getWinterPriorityTilt 40 (fun _ => some (1, 0))).1 ∈ winterTestAngles 40 :=
  ((C2_winter_steepest_needs_positive_december 40 (fun _ => some (1, 0))
      (by rw [abs_of_nonneg (by norm_num : (0 : ℚ) ≤ 40)]; norm_num)).2
    (fun r hr => by
      rcases List.mem_map.mp hr with ⟨a, ha, rfl⟩
      norm_num [winterValid])).1
